import Mathlib

/-!
Shallow embedding of the local-nginx-ingress controller (Go) in Lean 4,
with theorems settling the specification claims about it.

The Go packages embedded here:
* the snippet manager (SnippetManager: validateFilePath, DownloadSnippet, …),
* the label model (ExtractConfig, ValidateConfig, ValidateHostname,
  SanitizeContainerName),
* the container lister (ListContainers),
* the FastCGI parameter manager (LoadFastCGIParams, loadParamsFromFile, …),
* the nginx config generator (GenerateNginxConfig, sortLocationsByPriority),
* the provider commit step (writeConfigFile),
* the circuit breaker (CircuitBreaker.Execute),
* the health monitor (GetOverallHealth, healthHandler).

Side-effecting dependencies (the Docker runtime, the filesystem, the clock,
cryptographic hashing) are passed in explicitly as environment records, so
every definition is executable and every control-flow decision of the source
is preserved.
-/

set_option maxRecDepth 16384

namespace NginxIngress

instance {ε α : Type} [DecidableEq ε] [DecidableEq α] : DecidableEq (Except ε α) :=
  fun a b =>
    match a, b with
    | .ok x, .ok y =>
      if h : x = y then .isTrue (by rw [h])
      else .isFalse (by intro hh; cases hh; exact h rfl)
    | .error x, .error y =>
      if h : x = y then .isTrue (by rw [h])
      else .isFalse (by intro hh; cases hh; exact h rfl)
    | .ok _, .error _ => .isFalse (by intro hh; cases hh)
    | .error _, .ok _ => .isFalse (by intro hh; cases hh)

/-!
Kernel-computable string primitives. The Go standard-library string
functions used by the source are modelled over the character list of the
string (Go indexes bytes, but every string these functions touch here is
ASCII, where the two coincide). The core Lean equivalents are avoided only
because their byte-position loops do not reduce inside the kernel, which
the concrete witnesses below rely on.
-/

/-- Go strings.Contains: `needle` occurs as a contiguous substring of `s`. -/
def strContains (s needle : String) : Bool :=
  decide (needle.toList <:+: s.toList)

/-- Go strings.HasPrefix. -/
def strStartsWith (s p : String) : Bool :=
  p.toList.isPrefixOf s.toList

/-- Go strings.HasSuffix. -/
def strEndsWith (s p : String) : Bool :=
  p.toList.isSuffixOf s.toList

/-- Go strings.ToLower (ASCII). -/
def strToLower (s : String) : String :=
  String.mk (s.toList.map Char.toLower)

/-- Go strings.ToUpper (ASCII). -/
def strToUpper (s : String) : String :=
  String.mk (s.toList.map Char.toUpper)

/-- Go strings.TrimSpace. -/
def strTrim (s : String) : String :=
  String.mk (((s.toList.dropWhile Char.isWhitespace).reverse.dropWhile
    Char.isWhitespace).reverse)

/-- Split a character list at every separator position; empty segments are
kept, and the empty list yields one empty segment, as in Go strings.Split. -/
def splitChars (p : Char → Bool) (l : List Char) : List (List Char) :=
  l.foldr (fun c acc =>
    match acc with
    | [] => [[c]]
    | cur :: rest => if p c then [] :: cur :: rest else (c :: cur) :: rest) [[]]

/-- Go strings.Split with a character predicate as separator. -/
def strSplit (p : Char → Bool) (s : String) : List String :=
  (splitChars p s.toList).map String.mk

/-- Go strings.Split with a one-character separator. -/
def strSplitOnChar (sep : Char) (s : String) : List String :=
  strSplit (fun c => c = sep) s

/-- Go strings.ReplaceAll with one-character pattern and replacement. -/
def strReplaceChar (s : String) (old new : Char) : String :=
  String.mk (s.toList.map (fun c => if c = old then new else c))

/-- Go strings.Contains for a single character. -/
def strContainsChar (s : String) (c : Char) : Bool :=
  s.toList.contains c

/-- Go strconv.Atoi: an optional sign followed by at least one digit. -/
def strconvAtoi (s : String) : Option Int :=
  let signAndDigits : Int × List Char :=
    match s.toList with
    | '-' :: rest => (-1, rest)
    | '+' :: rest => (1, rest)
    | chars => (1, chars)
  match signAndDigits with
  | (sign, digits) =>
    if digits = [] || !digits.all Char.isDigit then none
    else
      some (sign * (digits.foldl (fun n c => n * 10 + ((c.toNat : Int) - ('0'.toNat : Int))) 0))

/-- Go map read `m[k]` with the zero value "" when the key is absent. -/
def lookupD (m : List (String × String)) (k : String) : String :=
  (m.lookup k).getD ""

/-- Go map write `m[k] = v` on an association-list model: the binding for
`k` is replaced if present, appended otherwise. -/
def insertKV (m : List (String × String)) (k v : String) : List (String × String) :=
  if (m.lookup k).isSome then
    m.map (fun kv => if kv.1 = k then (k, v) else kv)
  else
    m ++ [(k, v)]

/-! ## Snippet manager (snippets.go) -/

/-- SnippetContent: downloaded snippet content with metadata. -/
structure SnippetContent where
  Content : String
  FilePath : String
  Hash : String
deriving DecidableEq, Repr

/-- validateFilePath: the path-safety gate. Rejects path traversal (".."),
reserved system directories ("/etc/", "/var/"), and any suffix other than
".conf" or ".txt". -/
def validateFilePath (filePath : String) : Except String Unit :=
  if strContains filePath ".." then
    .error "path traversal not allowed"
  else if strStartsWith filePath "/etc/" || strStartsWith filePath "/var/" then
    .error "system directories not allowed"
  else if !strEndsWith filePath ".conf" && !strEndsWith filePath ".txt" then
    .error "only .conf and .txt files allowed"
  else
    .ok ()

/-- The effectful context of a SnippetManager: the snippet cache directory,
the cache contents, the Docker runtime copy endpoint, and the two sha256
hashes (modelled as abstract string functions, since the claims never
inspect hash values). -/
structure SnippetEnv where
  cacheDir : String
  /-- loadFromCache: readable cache file contents, none when absent. -/
  cache : String → Option String
  /-- client.CopyFromContainer: containerID and path to tar-stream bytes. -/
  copyFromContainer : String → String → Except String String
  /-- hashPath: sha256 of the path, hex, truncated to 12 characters. -/
  hashPath : String → String
  /-- hashContent: sha256 of the content, hex, truncated to 12 characters. -/
  hashContent : String → String

/-- downloadViaExec: simplified extraction of the payload from a tar stream
already read into a buffer. -/
def downloadViaExec (content : String) : String :=
  if strContainsChar content (Char.ofNat 0) then
    let parts := strSplit (fun c => c = Char.ofNat 0) content
    match parts.find? (fun part => strTrim part ≠ "" && !strStartsWith part "PaxHeaders") with
    | some part => strTrim part
    | none => strTrim content
  else
    strTrim content

/-- downloadFromContainer: one CopyFromContainer runtime call followed by
tar extraction. -/
def downloadFromContainer (env : SnippetEnv) (containerID filePath : String) :
    Except String String :=
  match env.copyFromContainer containerID filePath with
  | .error e => .error ("failed to copy file from container: " ++ e)
  | .ok raw => .ok (downloadViaExec raw)

/-- DownloadSnippet. The second component counts CopyFromContainer runtime
calls issued during the call (0 or 1). An empty path returns no snippet and
no error; an invalid path is refused by validateFilePath before any cache or
runtime access. -/
def DownloadSnippet (env : SnippetEnv) (containerID filePath : String) :
    Except String (Option SnippetContent) × Nat :=
  if filePath = "" then
    (.ok none, 0)
  else
    match validateFilePath filePath with
    | .error e => (.error ("invalid file path " ++ filePath ++ ": " ++ e), 0)
    | .ok _ =>
      let cacheKey := containerID.take 12 ++ "_" ++ env.hashPath filePath
      let cacheFile := env.cacheDir ++ "/" ++ cacheKey ++ ".conf"
      match env.cache cacheFile with
      | some content =>
        (.ok (some ⟨content, "", env.hashContent content⟩), 0)
      | none =>
        match downloadFromContainer env containerID filePath with
        | .error e =>
          (.error ("failed to download " ++ filePath ++ " from container " ++
            containerID ++ ": " ++ e), 1)
        | .ok content =>
          (.ok (some ⟨content, filePath, env.hashContent content⟩), 1)

/-! ## Label model (labels.go) -/

/-- Base label key prefix for nginx ingress (Go constant LabelPrefix;
renamed here only to keep identifier conventions of this development). -/
def LabelBase : String := "nginx.ingress"

def LabelEnable : String := LabelBase ++ ".enable"
def LabelHost : String := LabelBase ++ ".host"
def LabelPort : String := LabelBase ++ ".port"
def LabelPath : String := LabelBase ++ ".path"
def LabelProtocol : String := LabelBase ++ ".protocol"
def LabelTLS : String := LabelBase ++ ".tls"
def LabelCertName : String := LabelBase ++ ".tls.certname"
def LabelPriority : String := LabelBase ++ ".priority"
def LabelRule : String := LabelBase ++ ".rule"
def LabelMethod : String := LabelBase ++ ".loadbalancer.method"
def LabelHealthCheck : String := LabelBase ++ ".healthcheck"
def LabelHealthCheckPath : String := LabelBase ++ ".healthcheck.path"
def LabelAuth : String := LabelBase ++ ".auth"
def LabelCORS : String := LabelBase ++ ".cors"
def LabelConfigurationSnippet : String := LabelBase ++ ".configuration-snippet"
def LabelServerSnippet : String := LabelBase ++ ".server-snippet"
def LabelBackendProtocol : String := LabelBase ++ ".backend-protocol"
def LabelFastCGIIndex : String := LabelBase ++ ".fastcgi-index"
def LabelFastCGIParams : String := LabelBase ++ ".fastcgi-params"
def LabelFastCGIParamsFile : String := LabelBase ++ ".fastcgi-params-file"

def DefaultProtocol : String := "http"
def DefaultPath : String := "/"
def DefaultPriority : Int := 100

structure LoadBalancerConfig where
  Method : String
deriving DecidableEq, Repr

structure HealthCheckConfig where
  Enabled : Bool
  Path : String
deriving DecidableEq, Repr

structure AuthConfig where
  Enabled : Bool
  Typ : String -- Go field Type (a Lean keyword)
  Realm : String
  Users : List String
deriving DecidableEq, Repr

structure CORSConfig where
  Enabled : Bool
  AllowOrigins : List String
  AllowMethods : List String
  AllowHeaders : List String
  AllowCredentials : Bool
deriving DecidableEq, Repr

structure MiddlewareConfig where
  Auth : AuthConfig
  CORS : CORSConfig
deriving DecidableEq, Repr

structure FastCGIConfig where
  Enabled : Bool
  BackendProtocol : String
  Index : String
  Params : List (String × String)
  ParamsFile : String
deriving DecidableEq, Repr

/-- ContainerConfig: the nginx configuration extracted from container labels. -/
structure ContainerConfig where
  ContainerID : String
  ContainerName : String
  NetworkIP : String
  Enabled : Bool
  Host : String
  Port : Int
  Path : String
  Protocol : String
  Priority : Int
  Rule : String
  TLS : Bool
  CertName : String
  LoadBalancer : LoadBalancerConfig
  HealthCheck : HealthCheckConfig
  Middleware : MiddlewareConfig
  ConfigurationSnippet : String
  ServerSnippet : String
  FastCGI : FastCGIConfig
deriving DecidableEq, Repr

/-- parseBool: Go truthiness used by the label model. -/
def parseBool (value : String) : Bool :=
  strToLower value = "true" || strToLower value = "1" ||
  strToLower value = "yes" || strToLower value = "on"

/-- parseFastCGIParams: comma-separated `K=V` pairs with trimming. -/
def parseFastCGIParams (paramStr : String) : List (String × String) :=
  if paramStr = "" then []
  else
    (strSplitOnChar ',' paramStr).foldl (fun params pair =>
      match strSplitOnChar '=' (strTrim pair) with
      | key :: rest =>
        if rest ≠ [] then
          insertKV params (strTrim key) (strTrim (String.intercalate "=" rest))
        else params
      | [] => params) []

def extractLoadBalancerConfig (labels : List (String × String)) : LoadBalancerConfig :=
  match labels.lookup LabelMethod with
  | some method =>
    if method = "round_robin" || method = "least_conn" || method = "ip_hash" then
      ⟨method⟩
    else ⟨"round_robin"⟩
  | none => ⟨"round_robin"⟩

def extractHealthCheckConfig (labels : List (String × String)) : HealthCheckConfig :=
  { Enabled := parseBool (lookupD labels LabelHealthCheck)
    Path := (labels.lookup LabelHealthCheckPath).getD "/health" }

def extractMiddlewareConfig (labels : List (String × String)) : MiddlewareConfig :=
  let auth : AuthConfig :=
    match labels.lookup LabelAuth with
    | some authType => ⟨true, authType, "", []⟩
    | none => ⟨false, "", "", []⟩
  let cors : CORSConfig :=
    if parseBool (lookupD labels LabelCORS) then
      { Enabled := true
        AllowOrigins := match labels.lookup (LabelCORS ++ ".origins") with
          | some origins => strSplitOnChar ',' origins
          | none => []
        AllowMethods := match labels.lookup (LabelCORS ++ ".methods") with
          | some methods => strSplitOnChar ',' methods
          | none => []
        AllowHeaders := []
        AllowCredentials := false }
    else ⟨false, [], [], [], false⟩
  ⟨auth, cors⟩

/-- extractFastCGIConfig: FastCGI is enabled when the backend-protocol label
equals "FCGI" after upper-casing (a case-insensitive comparison); the label
value itself is stored unchanged. -/
def extractFastCGIConfig (labels : List (String × String)) : FastCGIConfig :=
  let base : FastCGIConfig := ⟨false, "", "", [], ""⟩
  let cfg :=
    match labels.lookup LabelBackendProtocol with
    | some backendProtocol =>
      { base with
        BackendProtocol := backendProtocol
        Enabled := strToUpper backendProtocol = "FCGI" }
    | none => base
  let cfg :=
    match labels.lookup LabelFastCGIIndex with
    | some index => { cfg with Index := index }
    | none => cfg
  let cfg :=
    match labels.lookup LabelFastCGIParams with
    | some params => { cfg with Params := parseFastCGIParams params }
    | none => cfg
  match labels.lookup LabelFastCGIParamsFile with
  | some paramsFile => { cfg with ParamsFile := paramsFile }
  | none => cfg

/-- ExtractConfig: derive a ContainerConfig from container labels.
Returns an error for a missing host, an unparsable or out-of-range port, or
an unknown protocol; a disabled container short-circuits to a disabled
config with defaults. -/
def ExtractConfig (containerID containerName networkIP : String)
    (labels : List (String × String)) : Except String ContainerConfig :=
  let config : ContainerConfig :=
    { ContainerID := containerID
      ContainerName := containerName
      NetworkIP := networkIP
      Enabled := false
      Host := ""
      Port := 80
      Path := DefaultPath
      Protocol := DefaultProtocol
      Priority := DefaultPriority
      Rule := ""
      TLS := false
      CertName := ""
      LoadBalancer := ⟨"round_robin"⟩
      HealthCheck := ⟨false, "/health"⟩
      Middleware := ⟨⟨false, "", "", []⟩, ⟨false, [], [], [], false⟩⟩
      ConfigurationSnippet := ""
      ServerSnippet := ""
      FastCGI := ⟨false, "", "", [], ""⟩ }
  match labels.lookup LabelEnable with
  | none => .ok config
  | some enabled =>
    if !parseBool enabled then .ok config
    else
      let config := { config with Enabled := true }
      match labels.lookup LabelHost with
      | none => .error ("container " ++ containerName ++ ": " ++ LabelHost ++
          " label is required when nginx ingress is enabled")
      | some host =>
        let config := { config with Host := host }
        let portResult : Except String ContainerConfig :=
          match labels.lookup LabelPort with
          | none => .ok config
          | some portStr =>
            match strconvAtoi portStr with
            | some port =>
              if port > 0 && port ≤ 65535 then .ok { config with Port := port }
              else .error ("container " ++ containerName ++ ": invalid port " ++ portStr)
            | none => .error ("container " ++ containerName ++ ": invalid port " ++ portStr)
        match portResult with
        | .error e => .error e
        | .ok config =>
          let protoResult : Except String ContainerConfig :=
            match labels.lookup LabelProtocol with
            | none => .ok config
            | some protocol =>
              if protocol = "http" || protocol = "https" then
                .ok { config with Protocol := protocol }
              else
                .error ("container " ++ containerName ++ ": invalid protocol " ++
                  protocol ++ ", must be http or https")
          match protoResult with
          | .error e => .error e
          | .ok config =>
            let config :=
              match labels.lookup LabelPath with
              | some path => { config with Path := path }
              | none => config
            let config :=
              match labels.lookup LabelPriority with
              | some priorityStr =>
                match strconvAtoi priorityStr with
                | some priority => { config with Priority := priority }
                | none => config
              | none => config
            let config :=
              match labels.lookup LabelRule with
              | some rule => { config with Rule := rule }
              | none => config
            let config := { config with TLS := parseBool (lookupD labels LabelTLS) }
            let config :=
              match labels.lookup LabelCertName with
              | some certName => { config with CertName := certName }
              | none => config
            let config := { config with
              LoadBalancer := extractLoadBalancerConfig labels
              HealthCheck := extractHealthCheckConfig labels
              Middleware := extractMiddlewareConfig labels }
            let config :=
              match labels.lookup LabelConfigurationSnippet with
              | some configSnippet => { config with ConfigurationSnippet := configSnippet }
              | none => config
            let config :=
              match labels.lookup LabelServerSnippet with
              | some serverSnippet => { config with ServerSnippet := serverSnippet }
              | none => config
            .ok { config with FastCGI := extractFastCGIConfig labels }

/-- ValidateConfig: validates the extracted configuration. A disabled config
always passes. An enabled config is checked for: non-empty host, port range,
protocol, a FastCGI backend-protocol spelled exactly "FCGI", and a path
beginning with "/". -/
def ValidateConfig (config : ContainerConfig) : Except String Unit :=
  if !config.Enabled then .ok ()
  else if config.Host = "" then
    .error "host is required when nginx ingress is enabled"
  else if config.Port ≤ 0 || config.Port > 65535 then
    .error "invalid port"
  else if config.Protocol ≠ "http" && config.Protocol ≠ "https" then
    .error ("invalid protocol " ++ config.Protocol)
  else if config.FastCGI.Enabled && config.FastCGI.BackendProtocol ≠ "FCGI" then
    .error "backend-protocol must be FCGI when FastCGI is enabled"
  else if !strStartsWith config.Path "/" then
    .error "path must start with /"
  else
    .ok ()

/-! ## Hostname validation and name sanitization (examples.go) -/

/-- ValidateHostname: non-empty, at most 253 characters, no leading or
trailing dot, no empty dot-separated part, each part at most 63 characters. -/
def ValidateHostname (hostname : String) : Except String Unit :=
  if hostname = "" then
    .error "hostname cannot be empty"
  else if hostname.length > 253 then
    .error "hostname too long (max 253 characters)"
  else if strStartsWith hostname "." || strEndsWith hostname "." then
    .error "hostname cannot start or end with a dot"
  else
    match (strSplitOnChar '.' hostname).find? (fun part => part.length = 0 || part.length > 63) with
    | some part =>
      if part.length = 0 then .error "hostname cannot have empty parts"
      else .error ("hostname part " ++ part ++ " too long (max 63 characters)")
    | none => .ok ()

/-- SanitizeContainerName: replace "-", ".", "/" with "_", strip leading and
trailing underscores, and map an empty result to "unnamed". -/
def SanitizeContainerName (name : String) : String :=
  let replaced := strReplaceChar (strReplaceChar (strReplaceChar name '-' '_') '.' '_') '/' '_'
  let chars := replaced.toList
  let trimmed := ((chars.dropWhile (fun c => c = '_')).reverse.dropWhile
    (fun c => c = '_')).reverse
  let sanitized := String.mk trimmed
  if sanitized = "" then "unnamed" else sanitized

/-! ## Container listing (data.go) -/

/-- ContainerData: a running container together with its derived config. -/
structure ContainerData where
  Config : ContainerConfig
  IPAddress : String
  NetworkName : String
  Status : String
deriving DecidableEq, Repr

/-- A container as reported by the Docker API: identifier, names, labels and
status, plus the outcome of ContainerInspect (whether it succeeded, and the
network address/name that extractNetworkInfo would derive from it). -/
structure RawContainer where
  ID : String
  Names : List String
  Labels : List (String × String)
  Status : String
  inspectOk : Bool
  networkIP : String
  networkName : String
deriving DecidableEq, Repr

/-- getContainerName: first name with the leading "/" removed. -/
def getContainerName (names : List String) : String :=
  match names with
  | [] => ""
  | name :: _ => if strStartsWith name "/" then name.drop 1 else name

/-- hasNginxLabels: some label key carries the nginx.ingress base. -/
def hasNginxLabels (labels : List (String × String)) : Bool :=
  labels.any (fun kv => strStartsWith kv.1 LabelBase)

/-- One iteration of the ListContainers loop: every failure (inspect,
extract, validate) and every disabled or unlabelled container produces
`none` (the container is skipped, with at most a printed warning); only a
fully valid enabled container produces an entry. -/
def processContainer (c : RawContainer) : Option ContainerData :=
  if !hasNginxLabels c.Labels then none
  else if !c.inspectOk then none
  else
    match ExtractConfig c.ID (getContainerName c.Names) c.networkIP c.Labels with
    | .error _ => none
    | .ok config =>
      if !config.Enabled then none
      else
        match ValidateConfig config with
        | .error _ => none
        | .ok _ => some ⟨config, c.networkIP, c.networkName, c.Status⟩

/-- ListContainers: retrieve all containers and extract nginx ingress
configurations, skipping (never failing on) each bad container. The Docker
ContainerList call itself is assumed to succeed; its failure is the only
error return of the Go function and is orthogonal to per-container errors. -/
def ListContainers : List RawContainer → List ContainerData
  | [] => []
  | c :: rest =>
    match processContainer c with
    | none => ListContainers rest
    | some d => d :: ListContainers rest

/-! ## FastCGI parameter manager (fastcgi.go) -/

/-- GetSupportedFileExtensions: the file extensions this manager declares it
supports for FastCGI parameter files. -/
def GetSupportedFileExtensions : List String :=
  [".conf", ".txt", ".params"]

/-- Go strings.Fields: split on whitespace, dropping empty fields. -/
def goFields (s : String) : List String :=
  (strSplit Char.isWhitespace s).filter (fun w => w ≠ "")

/-- Strip one layer of surrounding double or single quotes. -/
def stripQuotes (value : String) : String :=
  if (strStartsWith value "\"" && strEndsWith value "\"") ||
     (strStartsWith value "'" && strEndsWith value "'") then
    (value.drop 1).dropRight 1
  else value

/-- parseFastCGIParamsFile: parse parameter-file content. Recognizes
`fastcgi_param KEY VALUE[;]` directives and plain `KEY=VALUE` lines;
comments and blank lines are skipped. -/
def parseFastCGIParamsFile (content : String) : List (String × String) :=
  (strSplitOnChar '\n' content).foldl (fun params rawLine =>
    let line := strTrim rawLine
    if line = "" || strStartsWith line "#" then params
    else if strStartsWith line "fastcgi_param " then
      match goFields line with
      | _ :: paramName :: rest =>
        if rest ≠ [] then
          let paramValue := String.intercalate " " rest
          let paramValue :=
            if strEndsWith paramValue ";" then paramValue.dropRight 1 else paramValue
          insertKV params paramName (stripQuotes paramValue)
        else params
      | _ => params
    else
      match strSplitOnChar '=' line with
      | key :: rest =>
        if rest ≠ [] then
          insertKV params (strTrim key) (stripQuotes (strTrim (String.intercalate "=" rest)))
        else params
      | [] => params) []

/-- loadParamsFromFile: validate the path, download the file through the
snippet manager, and parse it. The second component again counts runtime
copy calls. The `ok none` download outcome cannot occur here because
validateFilePath rejects the empty path. -/
def loadParamsFromFile (env : SnippetEnv) (containerID filePath : String) :
    Except String (List (String × String)) × Nat :=
  match validateFilePath filePath with
  | .error e => (.error e, 0)
  | .ok _ =>
    match DownloadSnippet env containerID filePath with
    | (.error e, n) => (.error e, n)
    | (.ok none, n) => (.error "no snippet content", n)
    | (.ok (some snippetContent), n) =>
      (.ok (parseFastCGIParamsFile snippetContent.Content), n)

/-- The default PHP-FPM parameters injected by addDefaultPHPParams. -/
def defaultPHPParams : List (String × String) :=
  [("SCRIPT_FILENAME", "$document_root$fastcgi_script_name"),
   ("QUERY_STRING", "$query_string"),
   ("REQUEST_METHOD", "$request_method"),
   ("CONTENT_TYPE", "$content_type"),
   ("CONTENT_LENGTH", "$content_length"),
   ("SCRIPT_NAME", "$fastcgi_script_name"),
   ("REQUEST_URI", "$request_uri"),
   ("DOCUMENT_URI", "$document_uri"),
   ("DOCUMENT_ROOT", "$document_root"),
   ("SERVER_PROTOCOL", "$server_protocol"),
   ("REQUEST_SCHEME", "$scheme"),
   ("HTTPS", "$https if_not_empty"),
   ("GATEWAY_INTERFACE", "CGI/1.1"),
   ("SERVER_SOFTWARE", "nginx/$nginx_version"),
   ("REMOTE_ADDR", "$remote_addr"),
   ("REMOTE_PORT", "$remote_port"),
   ("SERVER_ADDR", "$server_addr"),
   ("SERVER_PORT", "$server_port"),
   ("SERVER_NAME", "$server_name"),
   ("REDIRECT_STATUS", "200")]

/-- addDefaultPHPParams: add each default parameter not already present. -/
def addDefaultPHPParams (params : List (String × String)) : List (String × String) :=
  defaultPHPParams.foldl (fun params kv =>
    if (params.lookup kv.1).isSome then params
    else insertKV params kv.1 kv.2) params

/-- LoadFastCGIParams: label-level parameters, overridden by file-level ones
when a params file is configured, completed with the PHP defaults. A file
that fails to validate, download, or parse fails the whole call. -/
def LoadFastCGIParams (env : SnippetEnv) (config : ContainerConfig) :
    Except String (List (String × String)) × Nat :=
  let params := config.FastCGI.Params.foldl (fun m kv => insertKV m kv.1 kv.2) []
  if config.FastCGI.ParamsFile ≠ "" then
    match loadParamsFromFile env config.ContainerID config.FastCGI.ParamsFile with
    | (.error e, n) =>
      (.error ("failed to load FastCGI params from file " ++
        config.FastCGI.ParamsFile ++ ": " ++ e), n)
    | (.ok fileParams, n) =>
      let params := fileParams.foldl (fun m kv => insertKV m kv.1 kv.2) params
      (.ok (addDefaultPHPParams params), n)
  else
    (.ok (addDefaultPHPParams params), 0)

/-- ValidateFastCGIParams: SCRIPT_FILENAME and REQUEST_METHOD must be
present (the SCRIPT_FILENAME content check only prints a warning). -/
def ValidateFastCGIParams (params : List (String × String)) : Except String Unit :=
  if (params.lookup "SCRIPT_FILENAME").isNone then
    .error "required FastCGI parameter SCRIPT_FILENAME is missing"
  else if (params.lookup "REQUEST_METHOD").isNone then
    .error "required FastCGI parameter REQUEST_METHOD is missing"
  else
    .ok ()

/-- DownloadAllSnippets: download the location-level ("configuration") and
server-level ("server") snippets named by a container config; either
download failing fails the whole call, empty paths and nil snippets are
skipped. -/
def DownloadAllSnippets (env : SnippetEnv) (config : ContainerConfig) :
    Except String (List (String × SnippetContent)) :=
  let firstStep : Except String (List (String × SnippetContent)) :=
    if config.ConfigurationSnippet ≠ "" then
      match (DownloadSnippet env config.ContainerID config.ConfigurationSnippet).1 with
      | .error e => .error ("failed to download configuration snippet: " ++ e)
      | .ok none => .ok []
      | .ok (some snippet) => .ok [("configuration", snippet)]
    else .ok []
  match firstStep with
  | .error e => .error e
  | .ok snippets =>
    if config.ServerSnippet ≠ "" then
      match (DownloadSnippet env config.ContainerID config.ServerSnippet).1 with
      | .error e => .error ("failed to download server snippet: " ++ e)
      | .ok none => .ok snippets
      | .ok (some snippet) => .ok (snippets ++ [("server", snippet)])
    else .ok snippets

/-! ## Nginx configuration generation (nginx.go) -/

structure UpstreamServer where
  Address : String
  Weight : Int
  Backup : Bool
deriving DecidableEq, Repr

structure UpstreamConfig where
  Name : String
  Method : String
  Servers : List UpstreamServer
  HealthCheck : Bool
  HealthPath : String
deriving DecidableEq, Repr

structure SSLConfig where
  Enabled : Bool
  Certificate : String
  PrivateKey : String
  Protocols : List String
deriving DecidableEq, Repr

structure FastCGILocationConfig where
  Enabled : Bool
  Pass : String
  Index : String
  Params : List (String × String)
deriving DecidableEq, Repr

structure LocationConfig where
  Path : String
  Upstream : String
  Priority : Int
  ProxyPass : String
  Auth : Bool
  AuthType : String
  CORS : CORSConfig
  ProxyHeaders : List (String × String)
  ConfigurationSnippet : String
  FastCGI : FastCGILocationConfig
deriving DecidableEq, Repr

structure ServerConfig where
  ServerName : String
  Listen : List String
  SSL : SSLConfig
  Locations : List LocationConfig
  ServerSnippet : String
deriving DecidableEq, Repr

/-- NginxConfig: the complete generated configuration. `Generated` stands in
for the time.Now() stamp. -/
structure NginxConfig where
  Upstreams : List UpstreamConfig
  Servers : List ServerConfig
  Generated : Int
deriving DecidableEq, Repr

/-- GroupContainersByHost. The Go original groups through a map whose
iteration order is unspecified; this model fixes the order of host groups to
first appearance, which the theorems below do not depend on. -/
def GroupContainersByHost (containers : List ContainerData) :
    List (String × List ContainerData) :=
  let hosts := containers.foldl (fun hs c =>
    if hs.contains c.Config.Host then hs else hs ++ [c.Config.Host]) []
  hosts.map (fun h => (h, containers.filter (fun c => c.Config.Host = h)))

/-- The server-snippet content for a host group: the first container naming
a server snippet is consulted; a download failure only logs a warning and
yields the empty snippet. -/
def serverSnippetFor (env : SnippetEnv) (hostContainers : List ContainerData) : String :=
  match hostContainers.find? (fun c => c.Config.ServerSnippet ≠ "") with
  | none => ""
  | some c =>
    match DownloadAllSnippets env c.Config with
    | .error _ => ""
    | .ok snippets =>
      match snippets.lookup "server" with
      | some snippet => snippet.Content
      | none => ""

/-- The upstream and location synthesized for one container of a host
group, as in the body of the inner GenerateNginxConfig loop. The upstream
name concatenates the host (dots replaced by underscores) with the raw
container name. A configuration-snippet download failure only logs a
warning; a FastCGI parameter failure is returned as an error. -/
def buildContainer (env : SnippetEnv) (host : String) (c : ContainerData) :
    Except String (UpstreamConfig × LocationConfig) :=
  let upstreamName := "backend_" ++ strReplaceChar host '.' '_' ++ "_" ++ c.Config.ContainerName
  let upstream : UpstreamConfig :=
    { Name := upstreamName
      Method := c.Config.LoadBalancer.Method
      Servers := [{ Address := c.IPAddress ++ ":" ++ toString c.Config.Port
                    Weight := 1, Backup := false }]
      HealthCheck := c.Config.HealthCheck.Enabled
      HealthPath := c.Config.HealthCheck.Path }
  let configSnippetContent :=
    if c.Config.ConfigurationSnippet ≠ "" then
      match DownloadAllSnippets env c.Config with
      | .error _ => ""
      | .ok snippets =>
        match snippets.lookup "configuration" with
        | some snippet => snippet.Content
        | none => ""
    else ""
  let location : LocationConfig :=
    { Path := c.Config.Path
      Upstream := upstreamName
      Priority := c.Config.Priority
      ProxyPass := "http://" ++ upstreamName
      Auth := c.Config.Middleware.Auth.Enabled
      AuthType := c.Config.Middleware.Auth.Typ
      CORS := c.Config.Middleware.CORS
      ProxyHeaders := [("X-Container-Name", c.Config.ContainerName),
                       ("X-Container-ID", c.Config.ContainerID.take 12)]
      ConfigurationSnippet := configSnippetContent
      FastCGI := ⟨false, "", "", []⟩ }
  if c.Config.FastCGI.Enabled then
    match (LoadFastCGIParams env c.Config).1 with
    | .error e =>
      .error ("failed to load FastCGI params for container " ++
        c.Config.ContainerName ++ ": " ++ e)
    | .ok fastcgiParams =>
      match ValidateFastCGIParams fastcgiParams with
      | .error e =>
        .error ("invalid FastCGI params for container " ++
          c.Config.ContainerName ++ ": " ++ e)
      | .ok _ =>
        .ok (upstream,
          { location with
            FastCGI := ⟨true, c.IPAddress ++ ":" ++ toString c.Config.Port,
              c.Config.FastCGI.Index, fastcgiParams⟩
            ProxyPass := "" })
  else
    .ok (upstream, location)

/-- The Go pattern "loop, return on first error": apply `f` to each element
in order, stopping at the first error. -/
def mapE {A B : Type} (f : A → Except String B) : List A → Except String (List B)
  | [] => .ok []
  | x :: xs =>
    match f x with
    | .error e => .error e
    | .ok v =>
      match mapE f xs with
      | .error e => .error e
      | .ok vs => .ok (v :: vs)

/-- One host group of GenerateNginxConfig: SSL listeners when any container
asks for TLS, the group server snippet, and the per-container upstreams and
locations. Any FastCGI failure inside buildContainer aborts the group. -/
def buildServer (env : SnippetEnv) (host : String) (hostContainers : List ContainerData) :
    Except String (List UpstreamConfig × ServerConfig) :=
  let needsSSL := hostContainers.any (fun c => c.Config.TLS)
  let listen := if needsSSL then ["80", "443 ssl"] else ["80"]
  let ssl : SSLConfig :=
    if needsSSL then
      ⟨true, "/etc/nginx/ssl/default.crt", "/etc/nginx/ssl/default.key",
        ["TLSv1.2", "TLSv1.3"]⟩
    else ⟨false, "", "", []⟩
  let serverSnippetContent := serverSnippetFor env hostContainers
  match mapE (buildContainer env host) hostContainers with
  | .error e => .error e
  | .ok pairs =>
    .ok (pairs.map Prod.fst,
      { ServerName := host
        Listen := listen
        SSL := ssl
        Locations := pairs.map Prod.snd
        ServerSnippet := serverSnippetContent })

/-- GenerateNginxConfig: group containers by host and synthesize upstreams
and server blocks. The first error from a FastCGI parameter load or
validation aborts the whole generation. -/
def GenerateNginxConfig (env : SnippetEnv) (now : Int)
    (containers : List ContainerData) : Except String NginxConfig :=
  match mapE (fun g => buildServer env g.1 g.2) (GroupContainersByHost containers) with
  | .error e => .error e
  | .ok results =>
    .ok { Upstreams := results.foldl (fun acc r => acc ++ r.1) []
          Servers := results.map Prod.snd
          Generated := now }

/-- The comparison function passed to sort.Slice by sortLocationsByPriority:
higher priority first, then longer (more specific) path first. -/
def locLess (a b : LocationConfig) : Bool :=
  if a.Priority ≠ b.Priority then decide (a.Priority > b.Priority)
  else decide (a.Path.length > b.Path.length)

/-- The non-strict order induced by locLess: a may precede b in the sorted
output. -/
def locLE (a b : LocationConfig) : Prop := locLess b a = false

instance : DecidableRel locLE := fun a b =>
  inferInstanceAs (Decidable (locLess b a = false))

/-- sortLocationsByPriority: a copy of the input sorted with locLess (the
Go original calls the standard-library sort with this comparator). -/
def sortLocationsByPriority (locations : List LocationConfig) : List LocationConfig :=
  List.insertionSort locLE locations

/-! ## Provider commit step (provider.go writeConfigFile) -/

/-- The filesystem operations writeConfigFile can issue, recorded in order. -/
inductive FsOp where
  | mkdirAll (dir : String)
  | writeFile (path : String) (content : String)
  | renameFile (src dst : String)
  | removeFile (path : String)
deriving DecidableEq, Repr

/-- Outcomes of the effectful steps of one writeConfigFile call: the
rendering of the config through the template, and whether each filesystem
call succeeds. -/
structure FsEnv where
  render : Except String String
  mkdirOk : Bool
  writeOk : Bool
  renameOk : Bool

/-- filepath.Dir, restricted to the slash-separated paths the provider
uses. -/
def filepathDir (p : String) : String :=
  let parts := strSplitOnChar '/' p
  if parts.length ≤ 1 then "." else String.intercalate "/" parts.dropLast

/-- writeConfigFile: render, ensure the directory, write the rendered text
to `<config_path>.tmp`, atomically rename it onto `<config_path>`. The
returned list records the filesystem operations issued, in order. Only a
rename failure removes the temp file. -/
def writeConfigFile (env : FsEnv) (nginxConfigPath : String) :
    Except String Unit × List FsOp :=
  match env.render with
  | .error e => (.error e, [])
  | .ok content =>
    let dir := filepathDir nginxConfigPath
    if !env.mkdirOk then
      (.error "failed to create config directory", [.mkdirAll dir])
    else
      let tempFile := nginxConfigPath ++ ".tmp"
      if !env.writeOk then
        (.error "failed to write temp config file",
         [.mkdirAll dir, .writeFile tempFile content])
      else if !env.renameOk then
        (.error "failed to move config file",
         [.mkdirAll dir, .writeFile tempFile content,
          .renameFile tempFile nginxConfigPath, .removeFile tempFile])
      else
        (.ok (),
         [.mkdirAll dir, .writeFile tempFile content,
          .renameFile tempFile nginxConfigPath])

/-! ## Circuit breaker (errors.go) -/

inductive CircuitState where
  | Closed
  | Open
  | HalfOpen
deriving DecidableEq, Repr

structure CircuitBreaker where
  failureThreshold : Int
  timeout : Int
  failureCount : Int
  lastFailureTime : Int
  state : CircuitState
deriving DecidableEq, Repr

/-- NewCircuitBreaker: closed, with zero counters. -/
def NewCircuitBreaker (failureThreshold timeout : Int) : CircuitBreaker :=
  { failureThreshold := failureThreshold
    timeout := timeout
    failureCount := 0
    lastFailureTime := 0
    state := .Closed }

/-- The outcome of one Execute call: the open-circuit fast failure (the
operation is not run), or the outcome of the operation itself. -/
inductive ExecOutcome where
  | circuitOpen
  | opFailed
  | opSucceeded
deriving DecidableEq, Repr

/-- CircuitBreaker.Execute at instant `now`, where `opFails` is the outcome
the operation would produce if run. First the Open state is aged into
HalfOpen once strictly more than `timeout` has passed since the last
failure (resetting the counter); an Open breaker then fails fast; otherwise
the operation runs: a failure bumps the counter (tripping to Open at the
threshold) and a success clears the counter (and closes a HalfOpen
breaker). -/
def CircuitBreaker.Execute (cb : CircuitBreaker) (now : Int) (opFails : Bool) :
    CircuitBreaker × ExecOutcome :=
  let cb :=
    if cb.state = .Open ∧ now - cb.lastFailureTime > cb.timeout then
      { cb with state := .HalfOpen, failureCount := 0 }
    else cb
  if cb.state = .Open then
    (cb, .circuitOpen)
  else if opFails then
    let failureCount := cb.failureCount + 1
    ({ cb with
        failureCount := failureCount
        lastFailureTime := now
        state := if failureCount ≥ cb.failureThreshold then .Open else cb.state },
     .opFailed)
  else
    ({ cb with
        state := if cb.state = .HalfOpen then .Closed else cb.state
        failureCount := 0 },
     .opSucceeded)

/-- `n` consecutive failing calls at instant `t`. -/
def runFailures : Nat → CircuitBreaker → Int → CircuitBreaker
  | 0, cb, _ => cb
  | n + 1, cb, t => runFailures n (cb.Execute t true).1 t

/-! ## Health monitor (health.go) -/

inductive HealthStatus where
  | Healthy
  | Degraded
  | Unhealthy
deriving DecidableEq, Repr

/-- The per-component record kept by the health monitor (the checker
closure and timing fields are irrelevant to the claims and elided). -/
structure ComponentHealth where
  Name : String
  Status : HealthStatus
  ErrorCount : Int
deriving DecidableEq, Repr

/-- GetOverallHealth: Unhealthy if any component is Unhealthy, else
Degraded if any is Degraded, else Healthy; an empty component set is
Healthy. The Go original walks a map in unspecified order, which this fold
reproduces order-insensitively. -/
def GetOverallHealth (components : List ComponentHealth) : HealthStatus :=
  if components.any (fun c => c.Status = .Unhealthy) then .Unhealthy
  else if components.any (fun c => c.Status = .Degraded) then .Degraded
  else .Healthy

/-- healthHandler: HTTP status code and body for GET /health. -/
def healthHandler (components : List ComponentHealth) : Nat × String :=
  match GetOverallHealth components with
  | .Healthy => (200, "\x7b\"status\":\"healthy\"\x7d")
  | .Degraded => (200, "\x7b\"status\":\"degraded\"\x7d")
  | .Unhealthy => (503, "\x7b\"status\":\"unhealthy\"\x7d")

/-! ## Concrete fixtures used to instantiate the theorems -/

/-- A snippet environment with an empty cache and an unreachable container
runtime; every copy attempt fails. -/
def offlineSnippetEnv : SnippetEnv :=
  { cacheDir := "/tmp/nginx-ingress-snippets"
    cache := fun _ => none
    copyFromContainer := fun _ _ => .error "runtime unavailable"
    hashPath := fun _ => "aaaaaaaaaaaa"
    hashContent := fun _ => "bbbbbbbbbbbb" }

/-- A snippet environment whose runtime serves a fixed file content. -/
def servingSnippetEnv : SnippetEnv :=
  { cacheDir := "/tmp/nginx-ingress-snippets"
    cache := fun _ => none
    copyFromContainer := fun _ _ => .ok "proxy_set_header X-Real-IP $remote_addr;"
    hashPath := fun _ => "cccccccccccc"
    hashContent := fun _ => "dddddddddddd" }

def defaultMiddleware : MiddlewareConfig :=
  ⟨⟨false, "", "", []⟩, ⟨false, [], [], [], false⟩⟩

/-- A plain enabled HTTP container config. -/
def webConfig : ContainerConfig :=
  { ContainerID := "fedcba9876543210"
    ContainerName := "frontend"
    NetworkIP := "10.0.0.5"
    Enabled := true
    Host := "web.local"
    Port := 3000
    Path := "/"
    Protocol := "http"
    Priority := 100
    Rule := ""
    TLS := false
    CertName := ""
    LoadBalancer := ⟨"round_robin"⟩
    HealthCheck := ⟨false, "/health"⟩
    Middleware := defaultMiddleware
    ConfigurationSnippet := ""
    ServerSnippet := ""
    FastCGI := ⟨false, "", "", [], ""⟩ }

def webContainer : ContainerData := ⟨webConfig, "10.0.0.5", "bridge", "running"⟩

/-- An enabled FastCGI container whose parameter file sits in a reserved
directory, so loading its parameters must fail the path gate. -/
def phpConfig : ContainerConfig :=
  { webConfig with
    ContainerID := "0123456789abcdef"
    ContainerName := "php-app"
    NetworkIP := "10.0.0.7"
    Host := "php.local"
    Port := 9000
    FastCGI := ⟨true, "FCGI", "index.php", [], "/etc/fastcgi.conf"⟩ }

def phpContainer : ContainerData := ⟨phpConfig, "10.0.0.7", "bridge", "running"⟩

/-- A container with a dash in its name, routed on a dotted host. -/
def dashedConfig : ContainerConfig :=
  { webConfig with
    ContainerID := "aaaabbbbccccdddd"
    ContainerName := "my-app"
    NetworkIP := "10.0.0.9"
    Host := "a.local" }

def dashedContainer : ContainerData := ⟨dashedConfig, "10.0.0.9", "bridge", "running"⟩

/-- A host name of 254 characters: over the DNS length limit. -/
def longHost : String := String.mk (List.replicate 254 'a')

/-- An otherwise valid enabled config whose host is 254 characters long. -/
def longHostConfig : ContainerConfig :=
  { webConfig with
    ContainerID := "1111222233334444"
    ContainerName := "longhost"
    Host := longHost }

/-- The raw Docker view of the long-host container. -/
def longHostRaw : RawContainer :=
  { ID := "1111222233334444"
    Names := ["/longhost"]
    Labels := [(LabelEnable, "true"), (LabelHost, longHost)]
    Status := "running"
    inspectOk := true
    networkIP := "10.0.0.11"
    networkName := "bridge"
  }

/-- A labelled raw container whose config extraction fails: enabled with no
host label. -/
def hostlessRaw : RawContainer :=
  { ID := "5555666677778888"
    Names := ["/hostless"]
    Labels := [(LabelEnable, "true")]
    Status := "running"
    inspectOk := true
    networkIP := "10.0.0.12"
    networkName := "bridge"
  }

/-- A healthy raw container. -/
def webRaw : RawContainer :=
  { ID := "fedcba9876543210"
    Names := ["/frontend"]
    Labels := [(LabelEnable, "true"), (LabelHost, "web.local"), (LabelPort, "3000")]
    Status := "running"
    inspectOk := true
    networkIP := "10.0.0.5"
    networkName := "bridge"
  }

/-- The labels of a FastCGI container whose backend-protocol label is
spelled in lower case. -/
def lowercaseFcgiLabels : List (String × String) :=
  [(LabelEnable, "true"), (LabelHost, "php.local"), (LabelPort, "9000"),
   (LabelBackendProtocol, "fcgi")]

def emptyNginxConfig : NginxConfig := ⟨[], [], 0⟩

def defaultUpstream : UpstreamConfig := ⟨"", "", [], false, ""⟩

/-- The configuration generated for the single plain web container. -/
def webGenerated : NginxConfig :=
  (GenerateNginxConfig offlineSnippetEnv 0 [webContainer]).toOption.getD emptyNginxConfig

/-- A commit environment whose temp-file write fails. -/
def failingWriteEnv : FsEnv := ⟨.ok "rendered", true, false, true⟩

/-- A commit environment in which everything succeeds. -/
def okWriteEnv : FsEnv := ⟨.ok "rendered", true, true, true⟩

/-- A commit environment whose atomic rename fails. -/
def renameFailEnv : FsEnv := ⟨.ok "rendered", true, true, false⟩

/-- A breaker with threshold 2 after two consecutive failures at t=0: Open. -/
def trippedBreaker : CircuitBreaker :=
  (((NewCircuitBreaker 2 30).Execute 0 true).1.Execute 0 true).1

/-- An Open breaker with threshold 3 that last failed at t=0. -/
def openBreaker : CircuitBreaker := ⟨3, 30, 3, 0, .Open⟩

/-- A HalfOpen breaker with threshold 3 and a clear failure counter. -/
def halfOpenBreaker : CircuitBreaker := ⟨3, 30, 0, 0, .HalfOpen⟩

/-! ## Order facts about the location comparator -/

/-- locLE unfolds to the intended emission order: priority descending with
ties broken by path length descending. -/
lemma locLE_iff (a b : LocationConfig) :
    locLE a b ↔ (a.Priority > b.Priority ∨
      (a.Priority = b.Priority ∧ a.Path.length ≥ b.Path.length)) := by
  unfold locLE locLess
  by_cases h : b.Priority = a.Priority
  · simp [h]
  · simp [h]
    omega

instance : IsTotal LocationConfig locLE :=
  ⟨fun a b => by rw [locLE_iff, locLE_iff]; omega⟩

instance : IsTrans LocationConfig locLE :=
  ⟨fun a b c hab hbc => by
    rw [locLE_iff] at hab hbc ⊢
    omega⟩

/-- Claim C9: sortLocationsByPriority returns a permutation of its input in which
locations appear in priority-descending order, ties broken by
path-length-descending; so emission order on one host is a total order
consistent with (priority desc, path-length desc). -/
theorem sortLocations_perm_and_ordered (l : List LocationConfig) :
    (sortLocationsByPriority l).Perm l ∧
    (sortLocationsByPriority l).Pairwise (fun a b =>
      a.Priority > b.Priority ∨
      (a.Priority = b.Priority ∧ a.Path.length ≥ b.Path.length)) := by
  constructor
  · exact List.perm_insertionSort locLE l
  · exact List.Pairwise.imp (fun hab => (locLE_iff _ _).1 hab)
      (List.sorted_insertionSort locLE l)

/-- Claim C10: with no component registered, the overall health is Healthy and
GET /health answers 200 with a healthy JSON body before any probe runs. -/
theorem empty_health_monitor_is_healthy :
    GetOverallHealth [] = .Healthy ∧
    healthHandler [] = (200, "\x7b\"status\":\"healthy\"\x7d") := by decide

/-- Claim C7: a traversal-free ".params" path outside the reserved directories is
nevertheless rejected by the path gate, even though GetSupportedFileExtensions
declares ".params" supported; loadParamsFromFile therefore fails on it. -/
theorem params_suffix_rejected_despite_support :
    ".params" ∈ GetSupportedFileExtensions ∧
    strContains "/app/fastcgi.params" ".." = false ∧
    strStartsWith "/app/fastcgi.params" "/etc/" = false ∧
    strStartsWith "/app/fastcgi.params" "/var/" = false ∧
    strEndsWith "/app/fastcgi.params" ".params" = true ∧
    validateFilePath "/app/fastcgi.params" = .error "only .conf and .txt files allowed" ∧
    (loadParamsFromFile offlineSnippetEnv "0123456789abcdef" "/app/fastcgi.params").1 =
      .error "only .conf and .txt files allowed" := by decide

/-- Claim C4: labels with enable=true, a host, and backend-protocol "fcgi" (lower
case) extract to a config with FastCGI enabled, but ValidateConfig rejects
that very config because the stored label value is compared case-sensitively
against "FCGI". -/
theorem lowercase_fcgi_enabled_but_rejected :
    (ExtractConfig "0123456789abcdef" "php-app" "10.0.0.7" lowercaseFcgiLabels).toOption.map
        (fun c => (c.Enabled, c.FastCGI.Enabled, ValidateConfig c)) =
      some (true, true,
        .error "backend-protocol must be FCGI when FastCGI is enabled") := by decide

/-- Claim C1 counterexample: the empty path has no allow-listed suffix, yet
DownloadSnippet returns neither an error nor a snippet for it (and issues no
copy call), so the gate claim fails at the empty path. -/
theorem empty_path_returns_no_error :
    strEndsWith "" ".conf" = false ∧ strEndsWith "" ".txt" = false ∧
    strEndsWith "" ".params" = false ∧
    DownloadSnippet offlineSnippetEnv "0123456789abcdef" "" = (.ok none, 0) := by decide

/-- Claim C2 counterexample: a batch of one valid plain container and one FastCGI
container whose parameter file is in a reserved directory: alone, the valid
container renders fine, but the FastCGI failure aborts the whole
configuration-generation pass instead of skipping the bad container. -/
theorem fastcgi_failure_poisons_batch :
    (GenerateNginxConfig offlineSnippetEnv 0 [webContainer]).toOption.isSome = true ∧
    (GenerateNginxConfig offlineSnippetEnv 0 [webContainer, phpContainer]).toOption
      = none := by decide

/-- Claim C3 counterexample: for host "a.local" and container name "my-app" the
generated upstream keeps the raw dash, differing from the sanitized name the
claim prescribes. -/
theorem upstream_name_not_sanitized :
    (GenerateNginxConfig offlineSnippetEnv 0 [dashedContainer]).toOption.map
        (fun cfg => cfg.Upstreams.map (fun u => u.Name)) =
      some ["backend_a_local_my-app"] ∧
    "backend_a_local_my-app" ≠
      "backend_" ++ strReplaceChar "a.local" '.' '_' ++ "_" ++
        SanitizeContainerName "my-app" := by decide

/-- Claim C8 counterexample: a 254-character host passes ValidateConfig (and the
container carrying it is kept by ListContainers), although ValidateHostname
would reject it as over the 253-character limit. -/
theorem long_host_passes_validation :
    longHost.length = 254 ∧
    ValidateConfig longHostConfig = .ok () ∧
    ValidateHostname longHost = .error "hostname too long (max 253 characters)" ∧
    (ListContainers [longHostRaw]).map (fun d => d.Config.Host) = [longHost] := by decide

/-! ## Circuit breaker behaviour -/

/-- Claim C5 counterexample: with threshold 2, two failures trip the breaker Open;
after the timeout a failing probe call runs (HalfOpen) but leaves the
breaker HalfOpen rather than returning it to Open, because entering HalfOpen
reset the counter and 1 < threshold. -/
theorem halfopen_failure_does_not_reopen :
    trippedBreaker.state = .Open ∧
    (trippedBreaker.Execute 100 true).2 = .opFailed ∧
    ((trippedBreaker.Execute 100 true).1).state = .HalfOpen := by decide

lemma Execute_closed_fail (cb : CircuitBreaker) (now : Int) (h : cb.state = .Closed) :
    cb.Execute now true =
      ({ cb with
          failureCount := cb.failureCount + 1
          lastFailureTime := now
          state := if cb.failureCount + 1 ≥ cb.failureThreshold then .Open else .Closed },
       .opFailed) := by
  unfold CircuitBreaker.Execute
  simp [h]

lemma runFailures_trips (n : Nat) :
    ∀ (cb : CircuitBreaker) (t : Int), cb.state = .Closed →
      cb.failureCount = cb.failureThreshold - (n : Int) → 1 ≤ n →
      (runFailures n cb t).state = .Open := by
  induction n with
  | zero => intro cb t _ _ hn; omega
  | succ k ih =>
    intro cb t hst hcount _
    rw [runFailures, Execute_closed_fail cb t hst]
    by_cases hk : k = 0
    · subst hk
      have : cb.failureCount + 1 ≥ cb.failureThreshold := by
        push_cast at hcount; omega
      rw [if_pos this]
      simp [runFailures]
    · have hlt : ¬ (cb.failureCount + 1 ≥ cb.failureThreshold) := by
        push_cast at hcount; omega
      rw [if_neg hlt]
      refine ih _ t rfl ?_ (by omega)
      show cb.failureCount + 1 = cb.failureThreshold - (k : Int)
      push_cast at hcount
      omega

/-- Claim C5 amended: threshold-many consecutive failures from a Closed breaker
trip it Open; while Open and within the timeout every call fails fast with
the open-circuit result and an unchanged breaker; after the timeout the next
call runs (in HalfOpen) and a success closes the breaker and clears the
counter; a success in HalfOpen closes the breaker; a failure in HalfOpen
increments the counter (reset on entering HalfOpen) and reopens the breaker
only once the counter reaches the threshold, otherwise the breaker stays
HalfOpen. -/
theorem circuit_breaker_protocol :
    (∀ (cb : CircuitBreaker) (t : Int) (n : Nat), cb.state = .Closed →
      cb.failureCount = cb.failureThreshold - (n : Int) → 1 ≤ n →
      (runFailures n cb t).state = .Open) ∧
    (∀ (cb : CircuitBreaker) (now : Int) (opFails : Bool), cb.state = .Open →
      now - cb.lastFailureTime ≤ cb.timeout →
      cb.Execute now opFails = (cb, .circuitOpen)) ∧
    (∀ (cb : CircuitBreaker) (now : Int), cb.state = .Open →
      now - cb.lastFailureTime > cb.timeout →
      cb.Execute now false =
        ({ cb with state := .Closed, failureCount := 0 }, .opSucceeded)) ∧
    (∀ (cb : CircuitBreaker) (now : Int), cb.state = .HalfOpen →
      cb.Execute now false =
        ({ cb with state := .Closed, failureCount := 0 }, .opSucceeded)) ∧
    (∀ (cb : CircuitBreaker) (now : Int), cb.state = .HalfOpen →
      cb.Execute now true =
        ({ cb with
            failureCount := cb.failureCount + 1
            lastFailureTime := now
            state := if cb.failureCount + 1 ≥ cb.failureThreshold then .Open
              else .HalfOpen },
         .opFailed)) := by
  refine ⟨fun cb t n => runFailures_trips n cb t, ?_, ?_, ?_, ?_⟩
  · intro cb now opFails h ht
    have hno : ¬(cb.state = .Open ∧ now - cb.lastFailureTime > cb.timeout) :=
      fun hc => absurd hc.2 (by omega)
    unfold CircuitBreaker.Execute
    rw [if_neg hno, if_pos h]
  · intro cb now h ht
    have hyes : cb.state = .Open ∧ now - cb.lastFailureTime > cb.timeout := ⟨h, ht⟩
    unfold CircuitBreaker.Execute
    rw [if_pos hyes]
    simp
  · intro cb now h
    have hno : ¬(cb.state = .Open ∧ now - cb.lastFailureTime > cb.timeout) := by
      simp [h]
    unfold CircuitBreaker.Execute
    rw [if_neg hno]
    simp [h]
  · intro cb now h
    have hno : ¬(cb.state = .Open ∧ now - cb.lastFailureTime > cb.timeout) := by
      simp [h]
    unfold CircuitBreaker.Execute
    rw [if_neg hno]
    simp [h]

/-- Witness for the circuit breaker protocol at concrete breakers: three
failures trip a fresh threshold-3 breaker; an Open breaker inside the
timeout fails fast unchanged; a HalfOpen breaker closes on success. -/
theorem circuit_breaker_protocol_witness :
    (runFailures 3 (NewCircuitBreaker 3 30) 0).state = .Open ∧
    openBreaker.Execute 10 true = (openBreaker, .circuitOpen) ∧
    halfOpenBreaker.Execute 50 false =
      ({ halfOpenBreaker with state := .Closed, failureCount := 0 }, .opSucceeded) :=
  ⟨circuit_breaker_protocol.1 (NewCircuitBreaker 3 30) 0 3 (by decide) (by decide)
      (by decide),
   circuit_breaker_protocol.2.1 openBreaker 10 true (by decide) (by decide),
   circuit_breaker_protocol.2.2.2.1 halfOpenBreaker 50 (by decide)⟩

/-! ## Commit-step behaviour -/

/-- Claim C6 counterexample: when the temp-file write itself fails, writeConfigFile
returns an error without issuing any remove of the temp file. -/
theorem write_failure_removes_nothing :
    (writeConfigFile failingWriteEnv "/etc/nginx/conf.d/docker-ingress.conf").1 =
      .error "failed to write temp config file" ∧
    FsOp.removeFile "/etc/nginx/conf.d/docker-ingress.conf.tmp" ∉
      (writeConfigFile failingWriteEnv "/etc/nginx/conf.d/docker-ingress.conf").2 := by
  decide

/-- Claim C6 amended: the commit writes the rendered text to `<config_path>.tmp`
and atomically renames it onto `<config_path>`; a rename failure deletes the
temp file; but a temp-file write failure returns an error without any
delete. -/
theorem writeConfigFile_commit_protocol (env : FsEnv) (path content : String)
    (hr : env.render = .ok content) :
    (env.mkdirOk = true → env.writeOk = true → env.renameOk = true →
      writeConfigFile env path =
        (.ok (), [.mkdirAll (filepathDir path), .writeFile (path ++ ".tmp") content,
          .renameFile (path ++ ".tmp") path])) ∧
    (env.mkdirOk = true → env.writeOk = true → env.renameOk = false →
      writeConfigFile env path =
        (.error "failed to move config file",
         [.mkdirAll (filepathDir path), .writeFile (path ++ ".tmp") content,
          .renameFile (path ++ ".tmp") path, .removeFile (path ++ ".tmp")])) ∧
    (env.mkdirOk = true → env.writeOk = false →
      (writeConfigFile env path).1 = .error "failed to write temp config file" ∧
      FsOp.removeFile (path ++ ".tmp") ∉ (writeConfigFile env path).2) := by
  refine ⟨?_, ?_, ?_⟩
  · intro h1 h2 h3
    unfold writeConfigFile
    rw [hr]
    simp [h1, h2, h3]
  · intro h1 h2 h3
    unfold writeConfigFile
    rw [hr]
    simp [h1, h2, h3]
  · intro h1 h2
    unfold writeConfigFile
    rw [hr]
    simp [h1, h2]

/-- Witness for the commit protocol: the all-success environment produces
the write-then-rename trace, the rename-failure environment removes the
temp file, and the write-failure environment does not. -/
theorem writeConfigFile_commit_protocol_witness :
    writeConfigFile okWriteEnv "/etc/nginx/conf.d/docker-ingress.conf" =
      (.ok (), [.mkdirAll "/etc/nginx/conf.d",
        .writeFile "/etc/nginx/conf.d/docker-ingress.conf.tmp" "rendered",
        .renameFile "/etc/nginx/conf.d/docker-ingress.conf.tmp"
          "/etc/nginx/conf.d/docker-ingress.conf"]) ∧
    FsOp.removeFile "/tmp/a.conf.tmp" ∉ (writeConfigFile failingWriteEnv "/tmp/a.conf").2 := by
  constructor
  · exact ((writeConfigFile_commit_protocol okWriteEnv
      "/etc/nginx/conf.d/docker-ingress.conf" "rendered" rfl).1 rfl rfl rfl).trans
      (by decide)
  · exact ((writeConfigFile_commit_protocol failingWriteEnv "/tmp/a.conf" "rendered"
      rfl).2.2 rfl rfl).2

/-! ## The snippet path gate -/

/-- Claim C1 amended: for every NON-EMPTY path that contains "..", is rooted in
"/etc/" or "/var/", or whose suffix is outside the allowed set, both
DownloadSnippet and loadParamsFromFile return an error and issue zero
container-runtime copy calls (the empty path short-circuits DownloadSnippet
with no snippet and no error, still without a copy call). -/
theorem snippet_gate_blocks_invalid_paths (env : SnippetEnv)
    (containerID filePath : String) (hne : filePath ≠ "")
    (hbad : strContains filePath ".." = true ∨
      strStartsWith filePath "/etc/" = true ∨ strStartsWith filePath "/var/" = true ∨
      (strEndsWith filePath ".conf" = false ∧ strEndsWith filePath ".txt" = false ∧
       strEndsWith filePath ".params" = false)) :
    (∃ e, DownloadSnippet env containerID filePath = (.error e, 0)) ∧
    (∃ e, loadParamsFromFile env containerID filePath = (.error e, 0)) := by
  have hv : ∃ e, validateFilePath filePath = .error e := by
    unfold validateFilePath
    split
    · exact ⟨_, rfl⟩
    · split
      · exact ⟨_, rfl⟩
      · split
        · exact ⟨_, rfl⟩
        · rename_i h1 h2 h3
          rcases hbad with h | h | h | h <;> simp_all
  obtain ⟨e, he⟩ := hv
  constructor
  · refine ⟨"invalid file path " ++ filePath ++ ": " ++ e, ?_⟩
    unfold DownloadSnippet
    rw [if_neg hne, he]
  · refine ⟨e, ?_⟩
    unfold loadParamsFromFile
    rw [he]

/-- Witness for the snippet gate at the concrete disallowed path
"/app/hack.sh" (non-empty, traversal-free, unreserved, bad suffix). -/
theorem snippet_gate_blocks_invalid_paths_witness :
    (∃ e, DownloadSnippet offlineSnippetEnv "0123456789abcdef" "/app/hack.sh" =
      (.error e, 0)) ∧
    (∃ e, loadParamsFromFile offlineSnippetEnv "0123456789abcdef" "/app/hack.sh" =
      (.error e, 0)) :=
  snippet_gate_blocks_invalid_paths offlineSnippetEnv "0123456789abcdef" "/app/hack.sh"
    (by decide) (Or.inr (Or.inr (Or.inr (by decide))))

/-! ## Structure of the generated configuration -/

lemma mapE_ok_mem {A B : Type} (f : A → Except String B) :
    ∀ (l : List A) (vs : List B), mapE f l = .ok vs → ∀ v ∈ vs, ∃ x ∈ l, f x = .ok v := by
  intro l
  induction l with
  | nil =>
    intro vs h v hv
    unfold mapE at h
    cases h
    simp at hv
  | cons x xs ih =>
    intro vs h v hv
    unfold mapE at h
    cases hfx : f x with
    | error e => rw [hfx] at h; cases h
    | ok w =>
      rw [hfx] at h
      cases hrest : mapE f xs with
      | error e => rw [hrest] at h; cases h
      | ok ws =>
        rw [hrest] at h
        cases h
        rcases List.mem_cons.1 hv with hv | hv
        · exact ⟨x, List.mem_cons_self x xs, by rw [hfx, hv]⟩
        · obtain ⟨y, hy, hfy⟩ := ih ws hrest v hv
          exact ⟨y, List.mem_cons_of_mem x hy, hfy⟩

lemma mapE_ok_of_all {A B : Type} (f : A → Except String B) :
    ∀ (l : List A), (∀ x ∈ l, ∃ v, f x = .ok v) → ∃ vs, mapE f l = .ok vs := by
  intro l
  induction l with
  | nil => intro _; exact ⟨[], rfl⟩
  | cons x xs ih =>
    intro hall
    obtain ⟨v, hv⟩ := hall x (List.mem_cons_self x xs)
    obtain ⟨vs, hvs⟩ := ih (fun y hy => hall y (List.mem_cons_of_mem x hy))
    refine ⟨v :: vs, ?_⟩
    unfold mapE
    rw [hv, hvs]

lemma mem_group_mem_containers (cs : List ContainerData)
    (g : String × List ContainerData) (hg : g ∈ GroupContainersByHost cs) :
    ∀ c ∈ g.2, c ∈ cs ∧ c.Config.Host = g.1 := by
  unfold GroupContainersByHost at hg
  obtain ⟨h, _, hge⟩ := List.mem_map.1 hg
  subst hge
  intro c hc
  have hmf := List.mem_filter.1 hc
  exact ⟨hmf.1, by simpa using hmf.2⟩

lemma buildContainer_ok_name (env : SnippetEnv) (host : String) (c : ContainerData)
    (p : UpstreamConfig × LocationConfig) (h : buildContainer env host c = .ok p) :
    p.1.Name = "backend_" ++ strReplaceChar host '.' '_' ++ "_" ++
      c.Config.ContainerName := by
  unfold buildContainer at h
  cases hb : c.Config.FastCGI.Enabled with
  | false =>
    rw [hb] at h
    simp only [Bool.false_eq_true, if_false] at h
    cases h
    rfl
  | true =>
    rw [hb] at h
    simp only [if_true] at h
    cases hl : (LoadFastCGIParams env c.Config).1 with
    | error e => rw [hl] at h; simp at h
    | ok ps =>
      rw [hl] at h
      dsimp only at h
      cases hval : ValidateFastCGIParams ps with
      | error e => rw [hval] at h; simp at h
      | ok tt =>
        rw [hval] at h
        dsimp only at h
        cases h
        rfl

lemma buildContainer_ok_of_not_fastcgi (env : SnippetEnv) (host : String)
    (c : ContainerData) (h : c.Config.FastCGI.Enabled = false) :
    ∃ p, buildContainer env host c = .ok p := by
  unfold buildContainer
  rw [if_neg (by simp [h])]
  exact ⟨_, rfl⟩

lemma buildServer_ok_upstreams (env : SnippetEnv) (host : String)
    (hcs : List ContainerData) (r : List UpstreamConfig × ServerConfig)
    (h : buildServer env host hcs = .ok r) :
    ∀ u ∈ r.1, ∃ c ∈ hcs, ∃ p, buildContainer env host c = .ok p ∧ p.1 = u := by
  unfold buildServer at h
  cases hm : mapE (buildContainer env host) hcs with
  | error e => rw [hm] at h; cases h
  | ok pairs =>
    rw [hm] at h
    cases h
    intro u hu
    obtain ⟨p, hp, hpu⟩ := List.mem_map.1 hu
    obtain ⟨c, hc, hcp⟩ := mapE_ok_mem _ hcs pairs hm p hp
    exact ⟨c, hc, p, hcp, hpu⟩

lemma buildServer_ok_of_no_fastcgi (env : SnippetEnv) (host : String)
    (hcs : List ContainerData)
    (h : ∀ c ∈ hcs, c.Config.FastCGI.Enabled = false) :
    ∃ r, buildServer env host hcs = .ok r := by
  obtain ⟨pairs, hp⟩ := mapE_ok_of_all _ hcs
    (fun c hc => buildContainer_ok_of_not_fastcgi env host c (h c hc))
  unfold buildServer
  rw [hp]
  exact ⟨_, rfl⟩

lemma mem_foldl_append (rs : List (List UpstreamConfig × ServerConfig)) :
    ∀ (init : List UpstreamConfig) (u : UpstreamConfig),
      u ∈ rs.foldl (fun acc r => acc ++ r.1) init ↔
        u ∈ init ∨ ∃ r ∈ rs, u ∈ r.1 := by
  induction rs with
  | nil => intro init u; simp
  | cons r rs ih =>
    intro init u
    simp only [List.foldl_cons]
    rw [ih]
    simp only [List.mem_append, List.mem_cons]
    constructor
    · rintro ((h | h) | ⟨q, hq, hu⟩)
      · exact Or.inl h
      · exact Or.inr ⟨r, Or.inl rfl, h⟩
      · exact Or.inr ⟨q, Or.inr hq, hu⟩
    · rintro (h | ⟨q, (hq | hq), hu⟩)
      · exact Or.inl (Or.inl h)
      · exact Or.inl (Or.inr (hq ▸ hu))
      · exact Or.inr ⟨q, hq, hu⟩

/-- Claim C3 amended: every upstream of a generated configuration is named
"backend_" + the host with dots replaced by underscores + "_" + the RAW
container name of its container (SanitizeContainerName is never applied). -/
theorem generated_upstream_names (env : SnippetEnv) (now : Int)
    (cs : List ContainerData) (cfg : NginxConfig)
    (hgen : GenerateNginxConfig env now cs = .ok cfg) :
    ∀ u ∈ cfg.Upstreams, ∃ c, c ∈ cs ∧
      u.Name = "backend_" ++ strReplaceChar c.Config.Host '.' '_' ++ "_" ++
        c.Config.ContainerName := by
  unfold GenerateNginxConfig at hgen
  cases hm : mapE (fun g => buildServer env g.1 g.2) (GroupContainersByHost cs) with
  | error e => rw [hm] at hgen; cases hgen
  | ok results =>
    rw [hm] at hgen
    cases hgen
    intro u hu
    rcases (mem_foldl_append results [] u).1 hu with h0 | ⟨r, hr, hur⟩
    · simp at h0
    · obtain ⟨g, hg, hbs⟩ := mapE_ok_mem _ _ results hm r hr
      obtain ⟨c, hc, p, hbc, hpu⟩ := buildServer_ok_upstreams env g.1 g.2 r hbs u hur
      have hname := buildContainer_ok_name env g.1 c p hbc
      have hcg := mem_group_mem_containers cs g hg c hc
      exact ⟨c, hcg.1, by rw [← hpu, hname, hcg.2]⟩

/-- Witness for the upstream naming theorem at the concrete web container. -/
theorem generated_upstream_names_witness :
    ∃ c, c ∈ [webContainer] ∧
      (webGenerated.Upstreams.headD defaultUpstream).Name =
        "backend_" ++ strReplaceChar c.Config.Host '.' '_' ++ "_" ++
          c.Config.ContainerName :=
  generated_upstream_names offlineSnippetEnv 0 [webContainer] webGenerated (by decide)
    (webGenerated.Upstreams.headD defaultUpstream) (by decide)

/-- Claim C2 amended: a container whose derivation or validation fails is skipped
by ListContainers with the rest of the batch unaffected, and snippet
download failures never abort configuration generation (it succeeds for any
batch without FastCGI containers, whatever the snippet environment does);
but FastCGI parameter failures abort the whole pass, as the counterexample
shows. -/
theorem per_container_failures_are_skipped :
    (∀ (xs ys : List RawContainer) (c : RawContainer), processContainer c = none →
      ListContainers (xs ++ c :: ys) = ListContainers (xs ++ ys)) ∧
    (∀ (env : SnippetEnv) (now : Int) (cs : List ContainerData),
      (∀ c ∈ cs, c.Config.FastCGI.Enabled = false) →
      ∃ cfg, GenerateNginxConfig env now cs = .ok cfg) := by
  constructor
  · intro xs ys c hc
    induction xs with
    | nil => simp [ListContainers, hc]
    | cons x xs ih =>
      simp only [List.cons_append, ListContainers, List.append_eq]
      rw [ih]
  · intro env now cs hall
    have hsrv : ∀ g ∈ GroupContainersByHost cs, ∃ r, buildServer env g.1 g.2 = .ok r := by
      intro g hg
      exact buildServer_ok_of_no_fastcgi env g.1 g.2
        (fun c hc => hall c (mem_group_mem_containers cs g hg c hc).1)
    obtain ⟨results, hres⟩ := mapE_ok_of_all _ _ hsrv
    unfold GenerateNginxConfig
    rw [hres]
    exact ⟨_, rfl⟩

/-- Witness for per-container skipping: dropping the hostless container
leaves the rest of the listing unchanged, and a snippet-failing environment
still generates a config for the plain web container. -/
theorem per_container_failures_are_skipped_witness :
    ListContainers ([] ++ hostlessRaw :: [webRaw]) = ListContainers ([] ++ [webRaw]) ∧
    ∃ cfg, GenerateNginxConfig offlineSnippetEnv 0 [webContainer] = .ok cfg :=
  ⟨per_container_failures_are_skipped.1 [] [webRaw] hostlessRaw (by decide),
   per_container_failures_are_skipped.2 offlineSnippetEnv 0 [webContainer] (by decide)⟩

/-! ## Host validation -/

/-- Claim C8 amended: ValidateConfig checks neither the host length limit nor DNS
form — any enabled config with a non-empty host, in-range port, known
protocol, consistent FastCGI block and a "/"-rooted path passes, however
long its host; the 253-character limit lives only in ValidateHostname, which
the validation path never invokes. -/
theorem validate_config_ignores_host_form :
    (∀ config : ContainerConfig, config.Enabled = true → config.Host ≠ "" →
      0 < config.Port → config.Port ≤ 65535 →
      (config.Protocol = "http" ∨ config.Protocol = "https") →
      (config.FastCGI.Enabled = true → config.FastCGI.BackendProtocol = "FCGI") →
      strStartsWith config.Path "/" = true →
      ValidateConfig config = .ok ()) ∧
    (∀ hostname : String, 253 < hostname.length →
      ValidateHostname hostname = .error "hostname too long (max 253 characters)") := by
  constructor
  · intro config hen hh hp1 hp2 hpr hf hpath
    unfold ValidateConfig
    rw [if_neg (by simp [hen])]
    rw [if_neg hh]
    rw [if_neg (by simp only [Bool.or_eq_true, decide_eq_true_eq]; omega)]
    rw [if_neg (by rcases hpr with h | h <;> simp [h])]
    rw [if_neg ?_]
    · rw [if_neg (by simp [hpath])]
    · cases he : config.FastCGI.Enabled with
      | false => simp
      | true => simp [hf he]
  · intro hostname hlen
    unfold ValidateHostname
    rw [if_neg (fun h => absurd hlen (by rw [h]; decide))]
    rw [if_pos (by omega)]

/-- Witness for the host-validation theorem at the 254-character host. -/
theorem validate_config_ignores_host_form_witness :
    ValidateConfig longHostConfig = .ok () ∧
    ValidateHostname longHost = .error "hostname too long (max 253 characters)" :=
  ⟨validate_config_ignores_host_form.1 longHostConfig (by decide) (by decide) (by decide)
      (by decide) (Or.inl (by decide)) (by decide) (by decide),
   validate_config_ignores_host_form.2 longHost (by decide)⟩

end NginxIngress





